import Mathlib

set_option maxRecDepth 8000

/-!
Verification development for the `nerovaagent` CLI
(`packages/nerovaagent/bin/nerovaagent.js`).

The JavaScript is shallowly embedded:
* JS values are modelled by `JSValue` (objects are association lists,
  numbers are modelled by `Int` — no claim depends on float behaviour).
* Property access `v.k`, which throws on `null`/`undefined` bases, is
  modelled by `jsGet` in an `Except` monad; `v?.k` by `jsGetOpt`.
* `console.log` / `console.error` / `process.exitCode` are modelled by an
  explicit output state `OutState` threaded through the renderer.
* `process.exit(c)` terminates the process: command handlers return a
  `CliOutcome` recording emitted lines, the exit, and every request that
  was issued through the runtime client.
-/

namespace NerovaAgent

/-- Model of a JavaScript value as far as this CLI manipulates them. -/
inductive JSValue where
  | undefined : JSValue
  | null : JSValue
  | bool : Bool → JSValue
  | num : Int → JSValue
  | str : String → JSValue
  | arr : List JSValue → JSValue
  | obj : List (String × JSValue) → JSValue

/-- JS truthiness (`undefined`, `null`, `false`, `0`, `""` are falsy). -/
def truthy : JSValue → Bool
  | .undefined => false
  | .null => false
  | .bool b => b
  | .num n => n != 0
  | .str s => s != ""
  | .arr _ => true
  | .obj _ => true

/-- The `typeof` operator (restricted to the shapes in `JSValue`). -/
def typeofStr : JSValue → String
  | .undefined => "undefined"
  | .null => "object"
  | .bool _ => "boolean"
  | .num _ => "number"
  | .str _ => "string"
  | .arr _ => "object"
  | .obj _ => "object"

/-- Field lookup on an object's association list; a missing key reads as
`undefined`, exactly as in JS. -/
def objGet (fs : List (String × JSValue)) (k : String) : JSValue :=
  match fs.lookup k with
  | some v => v
  | none => .undefined

/-- A runtime `TypeError`, as raised by property access on a nullish base. -/
structure JsErr where
  message : String
deriving DecidableEq

/-- Property access `v[k]`: throws on nullish bases, reads `undefined` off
primitives and arrays (no array/string method is reached this way in the
source), looks the key up on objects. -/
def jsGet : JSValue → String → Except JsErr JSValue
  | .undefined, k => .error ⟨"Cannot read properties of undefined (reading " ++ k ++ ")"⟩
  | .null, k => .error ⟨"Cannot read properties of null (reading " ++ k ++ ")"⟩
  | .obj fs, k => .ok (objGet fs k)
  | _, _ => .ok .undefined

/-- Optional chaining `v?.k`: nullish bases give `undefined` instead of
throwing. -/
def jsGetOpt : JSValue → String → Except JsErr JSValue
  | .undefined, _ => .ok .undefined
  | .null, _ => .ok .undefined
  | v, k => jsGet v k

/-- Nullish coalescing `v ?? d`. -/
def nullishD (v d : JSValue) : JSValue :=
  match v with
  | .undefined => d
  | .null => d
  | _ => v

/-- Short-circuit `v || d` (value-preserving, as in JS). -/
def jsOr (v d : JSValue) : JSValue :=
  if truthy v = true then v else d

/-- Strict equality of a value against a string literal (`v === "s"`). -/
def jsStrictEqStr (v : JSValue) (s : String) : Bool :=
  match v with
  | .str t => t == s
  | _ => false

mutual
/-- String conversion as performed by template literals / `String(v)`. -/
def jsToString : JSValue → String
  | .undefined => "undefined"
  | .null => "null"
  | .bool true => "true"
  | .bool false => "false"
  | .num n => toString n
  | .str s => s
  | .arr xs => String.intercalate "," (jsToStringL xs)
  | .obj _ => "[object Object]"

def jsToStringL : List JSValue → List String
  | [] => []
  | .undefined :: vs => "" :: jsToStringL vs
  | .null :: vs => "" :: jsToStringL vs
  | v :: vs => jsToString v :: jsToStringL vs
end

/-- `Array.prototype.join(sep)`: elements converted with `jsToString`,
except `null`/`undefined` which become the empty string. -/
def jsArrayJoin (sep : String) (xs : List JSValue) : String :=
  String.intercalate sep (jsToStringL xs)

/-- Minimal JSON string escaping (enough for the values the claims touch). -/
def jsonEscapeChar (c : Char) : String :=
  if c = '\"' then "\\\""
  else if c = '\\' then "\\\\"
  else if c = '\n' then "\\n"
  else if c = '\r' then "\\r"
  else if c = '\t' then "\\t"
  else String.singleton c

def jsonQuote (s : String) : String :=
  "\"" ++ String.join (s.toList.map jsonEscapeChar) ++ "\""

mutual
/-- `JSON.stringify`: `undefined` has no serialisation (`none`); object
fields with `undefined` values are skipped; array holes become `null`. -/
def jsonStringify : JSValue → Option String
  | .undefined => none
  | .null => some "null"
  | .bool true => some "true"
  | .bool false => some "false"
  | .num n => some (toString n)
  | .str s => some (jsonQuote s)
  | .arr xs => some ("[" ++ String.intercalate "," (jsonStringifyArr xs) ++ "]")
  | .obj fs => some ("\x7b" ++ String.intercalate "," (jsonStringifyObj fs) ++ "\x7d")

def jsonStringifyArr : List JSValue → List String
  | [] => []
  | v :: vs =>
    (match jsonStringify v with
     | some s => s
     | none => "null") :: jsonStringifyArr vs

def jsonStringifyObj : List (String × JSValue) → List String
  | [] => []
  | (k, v) :: fs =>
    match jsonStringify v with
    | some s => (jsonQuote k ++ ":" ++ s) :: jsonStringifyObj fs
    | none => jsonStringifyObj fs
end

/-- What `console.log` shows for `JSON.stringify(v)` (the string itself, or
the text `undefined` when `stringify` yielded no value). -/
def consoleJson (v : JSValue) : String :=
  match jsonStringify v with
  | some s => s
  | none => "undefined"

/-- Console/exit-code state threaded through `renderRunResult`:
`lines` is stdout, `errLines` is stderr, `exitCode` is `process.exitCode`. -/
structure OutState where
  lines : List String
  errLines : List String
  exitCode : Option Nat
deriving DecidableEq

def out0 : OutState := ⟨[], [], none⟩

def logLine (st : OutState) (s : String) : OutState :=
  { st with lines := st.lines ++ [s] }

def errLine (st : OutState) (s : String) : OutState :=
  { st with errLines := st.errLines ++ [s] }

/-- Explicit bind for `Except JsErr` (kept first-order so proofs can
rewrite with `bindE_ok`/`bindE_error`). -/
def bindE {α β : Type} (x : Except JsErr α) (f : α → Except JsErr β) : Except JsErr β :=
  match x with
  | .error e => .error e
  | .ok v => f v

/-- Line 167: `const status = run.status || (run.ok ? 'completed' : 'unknown')`. -/
def effStatus (run : JSValue) : Except JsErr JSValue :=
  bindE (jsGet run "status") fun s =>
  if truthy s = true then .ok s
  else
    bindE (jsGet run "ok") fun okv =>
    .ok (if truthy okv = true then .str "completed" else .str "unknown")

/-- Pure form of `effStatus` for object payloads. -/
def effStatusT (fs : List (String × JSValue)) : JSValue :=
  let s := objGet fs "status"
  if truthy s = true then s
  else if truthy (objGet fs "ok") = true then .str "completed" else .str "unknown"

/-- Lines 180–188: the `decision.target` block of the timeline loop. -/
def renderTargetPart (st : OutState) (decision : JSValue) : Except JsErr OutState :=
  bindE (jsGet decision "target") fun target =>
  if truthy target = true ∧ typeofStr target = "object" then
    bindE (jsGet target "hints") fun hintsRaw =>
    let hints := jsOr hintsRaw (.obj [])
    bindE (jsGet hints "text_exact") fun te =>
    let exact :=
      match te with
      | .arr xs => jsArrayJoin " | " xs
      | _ => ""
    bindE (jsGet hints "text_partial") fun tp =>
    bindE (jsGet hints "text_contains") fun tc =>
    let contained :=
      match tc with
      | .arr xs => xs.headD .undefined
      | _ => .bool false
    let partialv := jsOr (jsOr tp contained) (.str "")
    let label := if exact = "" then partialv else .str exact
    if truthy label = true then .ok (logLine st ("   target: " ++ jsToString label))
    else .ok st
  else .ok st

/-- Lines 189–194: the `result` block of the timeline loop. -/
def renderResultPart (st : OutState) (result : JSValue) : Except JsErr OutState :=
  bindE (jsGet result "next") fun next =>
  if truthy next = true ∧ jsStrictEqStr next "continue" = false then
    bindE (jsGet result "reason") fun reason =>
    .ok (logLine st ("   result: next=" ++ jsToString next ++
      (if truthy reason = true then " reason=" ++ jsToString reason else "")))
  else
    bindE (jsGet result "clicked") fun clicked =>
    if truthy clicked = true then
      bindE (jsGet clicked "name") fun nm =>
      bindE (jsGet clicked "id") fun idv =>
      bindE (jsGet clicked "hit_state") fun hs =>
      .ok (logLine st ("   clicked: " ++ jsToString (jsOr nm (jsOr idv (.str "candidate"))) ++
        " (state=" ++ jsToString (jsOr hs (.str "n/a")) ++ ")"))
    else .ok st

/-- Lines 195–198: the `assistant` block of the timeline loop. -/
def renderAssistantPart (st : OutState) (entry : JSValue) : Except JsErr OutState :=
  bindE (jsGet entry "assistant") fun assistant =>
  if truthy assistant = true then
    bindE (jsGet assistant "parsed") fun p =>
    bindE (jsGet assistant "raw") fun raw =>
    let parsed := jsOr p raw
    let txt :=
      match parsed with
      | .str s => s
      | v => consoleJson v
    .ok (logLine st ("   assistant: " ++ txt))
  else .ok st

/-- Lines 174–199: one iteration of the `for (const entry of timeline)` loop. -/
def renderEntry (st : OutState) (entry : JSValue) : Except JsErr OutState :=
  bindE (jsGet entry "iteration") fun iterRaw =>
  let iter := nullishD iterRaw (.str "?")
  bindE (jsGet entry "decision") fun decisionRaw =>
  let decision := jsOr decisionRaw (.obj [])
  bindE (jsGet decision "action") fun actionRaw =>
  let action := jsOr actionRaw (.str "none")
  bindE (jsGet decision "reason") fun r1 =>
  bindE (jsGet decision "summary") fun r2 =>
  bindE (jsGet decision "target") fun tRaw =>
  bindE (jsGetOpt tRaw "reason") fun r3 =>
  let reason := jsOr r1 (jsOr r2 (jsOr r3 (.str "")))
  let st := logLine st (" step " ++ jsToString iter ++ ": action=" ++ jsToString action ++
    (if truthy reason = true then " :: " ++ jsToString reason else ""))
  bindE (renderTargetPart st decision) fun st =>
  bindE (jsGet entry "result") fun resultRaw =>
  let result := jsOr resultRaw (.obj [])
  bindE (renderResultPart st result) fun st =>
  renderAssistantPart st entry

def renderTimeline (st : OutState) : List JSValue → Except JsErr OutState
  | [] => .ok st
  | e :: es => bindE (renderEntry st e) fun st2 => renderTimeline st2 es

/-- Line 170: `Array.isArray(run.timeline) ? run.timeline : []`. -/
def timelineList (tl : JSValue) : List JSValue :=
  match tl with
  | .arr xs => xs
  | _ => []

/-- Lines 171–173: the explicit empty-timeline marker. -/
def markerStep (st : OutState) (timeline : List JSValue) : OutState :=
  if timeline.isEmpty then logLine st "[nerovaagent] timeline: <empty>" else st

/-- Lines 201–203: the `complete history` line, for non-empty arrays. -/
def historyStep (st : OutState) (ch : JSValue) : OutState :=
  match ch with
  | .arr xs => if xs.isEmpty then st else logLine st (" complete history: " ++ jsArrayJoin " | " xs)
  | _ => st

/-- Lines 205–209: the closed success-set decision — only the literal
`"completed"` is successful; anything else sets `process.exitCode = 1`
and emits the diagnostic pointing at the timeline. -/
def statusStep (status : JSValue) (st : OutState) : Except JsErr OutState :=
  if jsStrictEqStr status "completed" = true then .ok st
  else .ok (errLine { st with exitCode := some 1 }
    ("[nerovaagent] run finished with status " ++ jsToString status ++ ". Inspect timeline for details."))

/-- Lines 162–210: `renderRunResult(run)`.  Exceptions abort rendering (the
console output already flushed before a mid-render throw is not tracked by
the `Except` error; no claim inspects that path's output). -/
def renderRunResult (st : OutState) (run : JSValue) : Except JsErr OutState :=
  if truthy run = false ∨ typeofStr run ≠ "object" then
    .ok (logLine st ("Agent response: " ++ consoleJson run))
  else
    bindE (effStatus run) fun status =>
    bindE (jsGet run "iterations") fun iters =>
    bindE (jsGet run "agent") fun agent =>
    bindE (jsGetOpt agent "id") fun agentId =>
    let st := logLine st ("[nerovaagent] status=" ++ jsToString status ++
      " iterations=" ++ jsToString (nullishD iters (.str "n/a")) ++
      " agent=" ++ jsToString (nullishD agentId (.str "unknown")))
    bindE (jsGet run "timeline") fun tl =>
    let timeline := timelineList tl
    let st := markerStep st timeline
    bindE (renderTimeline st timeline) fun st =>
    bindE (jsGet run "completeHistory") fun ch =>
    statusStep status (historyStep st ch)

/-! ## Option parsing (lines 25–65) -/

/-- The `out` object built by `parseArgs`: recognised flag values plus the
positional sequence `out._`. -/
structure ParsedOptions where
  promptFile : Option String
  prompt : Option String
  context : Option String
  contextFile : Option String
  criticKey : Option String
  assistantKey : Option String
  assistantId : Option String
  positional : List String
deriving DecidableEq

def emptyOpts : ParsedOptions := ⟨none, none, none, none, none, none, none, []⟩

/-- One pass of the `for` loop of `parseArgs`.  Each guard is
`token === '--flag' && next`: the flag is consumed with its value only when
the following token exists and is truthy (non-empty); otherwise the token
falls through to the positionals. -/
def parseArgsGo (acc : ParsedOptions) : List String → ParsedOptions
  | [] => acc
  | token :: rest =>
    match rest with
    | next :: rest2 =>
      if token = "--prompt-file" ∧ next ≠ "" then
        parseArgsGo { acc with promptFile := some next } rest2
      else if token = "--prompt" ∧ next ≠ "" then
        parseArgsGo { acc with prompt := some next } rest2
      else if token = "--context" ∧ next ≠ "" then
        parseArgsGo { acc with context := some next } rest2
      else if token = "--context-file" ∧ next ≠ "" then
        parseArgsGo { acc with contextFile := some next } rest2
      else if token = "--critic-key" ∧ next ≠ "" then
        parseArgsGo { acc with criticKey := some next } rest2
      else if token = "--assistant-key" ∧ next ≠ "" then
        parseArgsGo { acc with assistantKey := some next } rest2
      else if token = "--assistant-id" ∧ next ≠ "" then
        parseArgsGo { acc with assistantId := some next } rest2
      else
        parseArgsGo { acc with positional := acc.positional ++ [token] } (next :: rest2)
    | [] => { acc with positional := acc.positional ++ [token] }

def parseArgs (argv : List String) : ParsedOptions :=
  parseArgsGo emptyOpts argv

/-- The seven recognised flags (§4.1 of the spec / lines 34–61). -/
def recognizedFlags : List String :=
  ["--prompt-file", "--prompt", "--context", "--context-file",
   "--critic-key", "--assistant-key", "--assistant-id"]

/-- The assignment `out.<field> = consume()` for each recognised flag. -/
def setFlag (acc : ParsedOptions) (f v : String) : ParsedOptions :=
  if f = "--prompt-file" then { acc with promptFile := some v }
  else if f = "--prompt" then { acc with prompt := some v }
  else if f = "--context" then { acc with context := some v }
  else if f = "--context-file" then { acc with contextFile := some v }
  else if f = "--critic-key" then { acc with criticKey := some v }
  else if f = "--assistant-key" then { acc with assistantKey := some v }
  else if f = "--assistant-id" then { acc with assistantId := some v }
  else acc

/-! ## Command handlers (`handleStart`, `handlePlaywrightLaunch`) -/

/-- `String.prototype.trim()`: strip leading/trailing whitespace.
Implemented structurally over the character list so that it evaluates by
kernel reduction (Lean's own `String.trim` is well-founded-recursive and
does not). -/
def jsTrim (s : String) : String :=
  ⟨((s.data.dropWhile Char.isWhitespace).reverse.dropWhile Char.isWhitespace).reverse⟩

/-- JS truthiness of a `string | undefined` variable. -/
def truthyOpt : Option String → Bool
  | some s => s != ""
  | none => false

/-- The body POSTed to `/run/start` (lines 116–122); `none` models `null`. -/
structure RunPayload where
  prompt : String
  contextNotes : String
  criticKey : Option String
  assistantKey : Option String
  assistantId : Option String
deriving DecidableEq

/-- One `client.request(path, { method, body })` call. -/
structure Request where
  path : String
  method : String
  body : Option RunPayload
deriving DecidableEq

/-- Failure surfaced by the runtime client: a message plus the optional raw
service-side `data` payload. -/
structure ReqError where
  message : String
  data : Option JSValue

/-- The external collaborators of one invocation: the file system, the
environment variables consulted by `handleStart`, the daemon probe's
answer, and the client's response to the (single) request. -/
structure World where
  files : String → Option String
  envCriticKey : Option String
  envAssistantKey : Option String
  envAssistantId : Option String
  daemonRunning : Bool
  response : Except ReqError JSValue

/-- Observable outcome of a command handler.  `exited = some c` means
`process.exit(c)` was called; `exitCodeVar` is `process.exitCode`;
`requests` lists every `client.request` call in order; `probed` records
whether `isAgentDaemonRunning()` was consulted. -/
structure CliOutcome where
  out : List String
  err : List String
  exited : Option Nat
  exitCodeVar : Option Nat
  requests : List Request
  probed : Bool
deriving DecidableEq

/-- The process exit status: `process.exit(c)` wins, else `process.exitCode`,
else `0`. -/
def CliOutcome.finalExit (c : CliOutcome) : Nat :=
  match c.exited with
  | some n => n
  | none =>
    match c.exitCodeVar with
    | some n => n
    | none => 0

def missingPromptMsg : String :=
  "A prompt is required. Pass as argument or use --prompt/--prompt-file."

def daemonNotRunningMsg : String :=
  "No active nerova agent daemon detected. Run `nerovaagent` first to activate it."

/-- Line 75: `Failed to read ${filePath}: ...` (the underlying fs cause
message is abstracted away — no claim inspects it). -/
def fileReadErrMsg (p : String) : String :=
  "Failed to read " ++ p ++ ": <io error>"

/-- `options.x || process.env.Y || null` (lines 119–121). -/
def orEnv (flag env : Option String) : Option String :=
  if truthyOpt flag = true then flag
  else if truthyOpt env = true then env
  else none

def missingPromptOutcome : CliOutcome :=
  ⟨[], [missingPromptMsg], some 1, none, [], false⟩

/-- Lines 98–136: `handleStart(options)`.  Control flow: prompt resolution
(with `loadFileSafe` aborting on unreadable files), missing-prompt check,
context resolution, payload construction, `requireAgentDaemon()` gate
(lines 92–96), then the single `/run/start` request and rendering. -/
def handleStart (w : World) (o : ParsedOptions) : CliOutcome :=
  -- let prompt = options.prompt; if (!prompt && options.promptFile) prompt = loadFileSafe(...)
  let pfPath := o.promptFile.getD ""
  let needFile := truthyOpt o.prompt = false ∧ truthyOpt o.promptFile = true
  if needFile ∧ w.files pfPath = none then
    ⟨[], [fileReadErrMsg pfPath], some 1, none, [], false⟩
  else
  let prompt1 := if needFile then some ((w.files pfPath).getD "") else o.prompt
  -- if (!prompt && options._.length > 0) prompt = options._.join(' ')
  let prompt2 :=
    if truthyOpt prompt1 = false ∧ o.positional ≠ [] then
      some (String.intercalate " " o.positional)
    else prompt1
  -- if (!prompt || !prompt.trim()) { console.error(...); process.exit(1); }
  if truthyOpt prompt2 = false ∨ jsTrim (prompt2.getD "") = "" then
    missingPromptOutcome
  else
  -- let contextNotes = options.context || ''; if (!contextNotes && options.contextFile) ...
  let ctx0 := if truthyOpt o.context = true then o.context.getD "" else ""
  let cfPath := o.contextFile.getD ""
  let needCtxFile := ctx0 = "" ∧ truthyOpt o.contextFile = true
  if needCtxFile ∧ w.files cfPath = none then
    ⟨[], [fileReadErrMsg cfPath], some 1, none, [], false⟩
  else
  let ctx := if needCtxFile then (w.files cfPath).getD "" else ctx0
  let payload : RunPayload :=
    ⟨jsTrim (prompt2.getD ""),
     if ctx ≠ "" then jsTrim ctx else "",
     orEnv o.criticKey w.envCriticKey,
     orEnv o.assistantKey w.envAssistantKey,
     orEnv o.assistantId w.envAssistantId⟩
  -- await requireAgentDaemon()
  if w.daemonRunning = false then
    ⟨[], [daemonNotRunningMsg], some 1, none, [], true⟩
  else
  let req : Request := ⟨"/run/start", "POST", some payload⟩
  match w.response with
  | .error e =>
    ⟨[], ["Failed to start agent: " ++ e.message] ++
        (match e.data with
         | some d => ["Runtime response: " ++ consoleJson d]
         | none => []),
     some 1, none, [req], true⟩
  | .ok result =>
    match renderRunResult out0 result with
    | .ok st => ⟨st.lines, st.errLines, none, st.exitCode, [req], true⟩
    | .error je =>
      -- a mid-render throw is caught by the same try/catch (line 129)
      ⟨[], ["Failed to start agent: " ++ je.message], some 1, none, [req], true⟩

/-- Lines 138–150: `handlePlaywrightLaunch()`. -/
def handlePlaywrightLaunch (w : World) : CliOutcome :=
  if w.daemonRunning = false then
    ⟨[], [daemonNotRunningMsg], some 1, none, [], true⟩
  else
  let req : Request := ⟨"/runtime/playwright/launch", "POST", none⟩
  match w.response with
  | .error e =>
    ⟨[], ["Failed to warm Playwright runtime: " ++ e.message] ++
        (match e.data with
         | some d => ["Runtime response: " ++ consoleJson d]
         | none => []),
     some 1, none, [req], true⟩
  | .ok result =>
    ⟨["Playwright ready: " ++ consoleJson result], [], none, none, [req], true⟩

/-- The prompt of the first request issued, if any. -/
def sentPrompt (c : CliOutcome) : Option String :=
  match c.requests with
  | r :: _ =>
    (match r.body with
     | some p => some p.prompt
     | none => none)
  | [] => none

/-! ## Typed data model (§3 of the spec): every field optional -/

/-- `target.hints`: `{ text_exact: seq<string>, text_partial: string,
text_contains: seq<string> }`, each field optional. -/
structure HintsR where
  exactTexts : Option (List String)
  partialText : Option String
  containsTexts : Option (List String)

structure TargetR where
  reason : Option String
  hints : Option HintsR

structure DecisionR where
  action : Option String
  reason : Option String
  summary : Option String
  target : Option TargetR

structure ClickedR where
  name : Option String
  id : Option String
  hitState : Option String

structure ResultR where
  next : Option String
  reason : Option String
  clicked : Option ClickedR

/-- `assistant.parsed` / `assistant.raw` may be arbitrary JSON values. -/
structure AssistantR where
  parsed : Option JSValue
  raw : Option JSValue

structure TimelineEntryR where
  iteration : Option Int
  decision : Option DecisionR
  result : Option ResultR
  assistant : Option AssistantR

structure AgentR where
  id : Option String

structure RunResultR where
  status : Option String
  ok : Option Bool
  iterations : Option Int
  agent : Option AgentR
  timeline : Option (List TimelineEntryR)
  completeHistory : Option (List String)

/-- A field that is genuinely absent from the object when `none`. -/
def optField (k : String) (v : Option JSValue) : List (String × JSValue) :=
  match v with
  | some x => [(k, x)]
  | none => []

def encodeHints (h : HintsR) : JSValue :=
  .obj (optField "text_exact" (h.exactTexts.map fun l => .arr (l.map .str)) ++
        optField "text_partial" (h.partialText.map .str) ++
        optField "text_contains" (h.containsTexts.map fun l => .arr (l.map .str)))

def encodeTarget (t : TargetR) : JSValue :=
  .obj (optField "reason" (t.reason.map .str) ++
        optField "hints" (t.hints.map encodeHints))

def encodeDecision (d : DecisionR) : JSValue :=
  .obj (optField "action" (d.action.map .str) ++
        optField "reason" (d.reason.map .str) ++
        optField "summary" (d.summary.map .str) ++
        optField "target" (d.target.map encodeTarget))

def encodeClicked (c : ClickedR) : JSValue :=
  .obj (optField "name" (c.name.map .str) ++
        optField "id" (c.id.map .str) ++
        optField "hit_state" (c.hitState.map .str))

def encodeResult (r : ResultR) : JSValue :=
  .obj (optField "next" (r.next.map .str) ++
        optField "reason" (r.reason.map .str) ++
        optField "clicked" (r.clicked.map encodeClicked))

def encodeAssistant (a : AssistantR) : JSValue :=
  .obj (optField "parsed" a.parsed ++ optField "raw" a.raw)

def encodeEntry (e : TimelineEntryR) : JSValue :=
  .obj (optField "iteration" (e.iteration.map .num) ++
        optField "decision" (e.decision.map encodeDecision) ++
        optField "result" (e.result.map encodeResult) ++
        optField "assistant" (e.assistant.map encodeAssistant))

def encodeAgent (a : AgentR) : JSValue :=
  .obj (optField "id" (a.id.map .str))

def encodeRunFields (r : RunResultR) : List (String × JSValue) :=
  optField "status" (r.status.map .str) ++
  optField "ok" (r.ok.map .bool) ++
  optField "iterations" (r.iterations.map .num) ++
  optField "agent" (r.agent.map encodeAgent) ++
  optField "timeline" (r.timeline.map fun l => .arr (l.map encodeEntry)) ++
  optField "completeHistory" (r.completeHistory.map fun l => .arr (l.map .str))

def encodeRun (r : RunResultR) : JSValue :=
  .obj (encodeRunFields r)

/-! ## Spec-side definitions (used to state refinement / amended claims) -/

/-- Claim C6's label rule, written from the spec's words: the first
non-empty candidate among the ` | `-joined `text_exact` sequence, the
`text_partial` string, and the first element of `text_contains`. -/
def specTargetLabel (h : HintsR) : String :=
  let joined := String.intercalate " | " (h.exactTexts.getD [])
  if joined ≠ "" then joined
  else if h.partialText.getD "" ≠ "" then h.partialText.getD ""
  else (h.containsTexts.getD []).headD ""

/-- Claim C7 (amended): the lines the result block emits for a typed
result — a result line exactly when `next` is present, non-empty and not
`"continue"`; otherwise a clicked line when `clicked` is present. -/
def clickedLines (r : ResultR) : List String :=
  match r.clicked with
  | some c =>
    let nm :=
      if c.name.getD "" ≠ "" then c.name.getD ""
      else if c.id.getD "" ≠ "" then c.id.getD ""
      else "candidate"
    let hsv := if c.hitState.getD "" ≠ "" then c.hitState.getD "" else "n/a"
    ["   clicked: " ++ nm ++ " (state=" ++ hsv ++ ")"]
  | none => []

def specResultLines (r : ResultR) : List String :=
  match r.next with
  | some s =>
    if s ≠ "" ∧ s ≠ "continue" then
      ["   result: next=" ++ s ++
        (match r.reason with
         | some t => if t ≠ "" then " reason=" ++ t else ""
         | none => "")]
    else clickedLines r
  | none => clickedLines r

/-- Claim C3 (amended): effective status is the `status` field when that
field is present *and truthy*; else `"completed"` when `ok` is truthy;
else `"unknown"`. -/
def specEffStatusAmended (fs : List (String × JSValue)) : JSValue :=
  match fs.lookup "status" with
  | some v =>
    if truthy v = true then v
    else if truthy (objGet fs "ok") = true then .str "completed" else .str "unknown"
  | none =>
    if truthy (objGet fs "ok") = true then .str "completed" else .str "unknown"

/-- The diagnostic emitted on a non-`"completed"` effective status. -/
def statusDiagLine (fs : List (String × JSValue)) : String :=
  "[nerovaagent] run finished with status " ++ jsToString (effStatusT fs) ++
    ". Inspect timeline for details."

/-- Claim C2 (amended): resolved prompt — the `--prompt` value if parsed,
else the prompt file's contents when non-empty (empty contents fall
through), else the positionals joined with a space, else nothing. -/
def specPromptAmended (o : ParsedOptions) (w : World) : Option String :=
  match o.prompt with
  | some p => some p
  | none =>
    let fromFile :=
      match o.promptFile with
      | some f => (w.files f).getD ""
      | none => ""
    if fromFile ≠ "" then some fromFile
    else if o.positional ≠ [] then some (String.intercalate " " o.positional)
    else none

/-- The amended missing-prompt condition: the resolved prompt is absent or
trims to the empty string. -/
def specPromptFails (o : ParsedOptions) (w : World) : Prop :=
  match specPromptAmended o w with
  | some s => jsTrim s = ""
  | none => True

/-! ## Concrete inputs used by witnesses and counterexamples -/

/-- A world whose daemon probe reports `false`. -/
def wDown : World := ⟨fun _ => none, none, none, none, false, .ok .null⟩

/-- A world with daemon running and a prompt file `pf` containing `"b"`. -/
def wUp : World :=
  ⟨fun p => if p = "pf" then some "b" else none, none, none, none, true, .ok .null⟩

/-- Options carrying a plain prompt. -/
def oHello : ParsedOptions := ⟨none, some "hello", none, none, none, none, none, []⟩

/-- C2 counterexample argv: a whitespace-only `--prompt` plus a readable
`--prompt-file` whose contents are non-empty. -/
def cexC2Argv : List String := ["--prompt", " ", "--prompt-file", "pf"]

/-- C3 counterexample payload: `status` present but empty, `ok` true. -/
def cexC3Fields : List (String × JSValue) := [("status", .str ""), ("ok", .bool true)]

/-- C7 counterexample: `next` present (empty string) and a clicked element. -/
def cexC7Result : JSValue :=
  .obj [("next", .str ""), ("reason", .str "why"), ("clicked", .obj [("name", .str "X")])]

/-- C8 concrete payload `{status: "failed", timeline: []}`. -/
def c8Fields : List (String × JSValue) := [("status", .str "failed"), ("timeline", .arr [])]

/-- States reached by rendering `null` once and twice (C9 witness). -/
def stNull1 : OutState := ⟨["Agent response: null"], [], none⟩

def stNull2 : OutState := ⟨["Agent response: null", "Agent response: null"], [], none⟩

/-! ## Derived total accessors -/

/-- Values on which property access does not throw. -/
def notNullish : JSValue → Bool
  | .undefined => false
  | .null => false
  | _ => true

/-- Total counterpart of `jsGet` on non-nullish bases. -/
def jsGetT : JSValue → String → JSValue
  | .obj fs, k => objGet fs k
  | _, _ => .undefined

/-- Total counterpart of `jsGetOpt`. -/
def jsGetOptT : JSValue → String → JSValue
  | .undefined, _ => .undefined
  | .null, _ => .undefined
  | v, k => jsGetT v k

/-- Exit-code update performed by a rendering step: `some c` overwrites
`process.exitCode`, `none` leaves it alone. -/
def exitJoin (x old : Option Nat) : Option Nat :=
  match x with
  | some c => some c
  | none => old

/-- A rendering step that only appends stdout lines — and does so
independently of the console state it starts from (or always throws the
same error). -/
def LinesOnlyStep (f : OutState → Except JsErr OutState) : Prop :=
  (∃ e, ∀ st, f st = .error e) ∨
  (∃ dl, ∀ st, f st = .ok ⟨st.lines ++ dl, st.errLines, st.exitCode⟩)

/-- A rendering step whose whole observable effect (stdout delta, stderr
delta, exit-code update, or the error thrown) is independent of the
console state it starts from. -/
def UniformStep (f : OutState → Except JsErr OutState) : Prop :=
  (∃ e, ∀ st, f st = .error e) ∨
  (∃ dl de x, ∀ st, f st = .ok ⟨st.lines ++ dl, st.errLines ++ de, exitJoin x st.exitCode⟩)

/-! ## Basic lemmas about the JS model -/

theorem bindE_ok {α β : Type} (v : α) (f : α → Except JsErr β) :
    bindE (.ok v) f = f v := rfl

theorem bindE_error {α β : Type} (e : JsErr) (f : α → Except JsErr β) :
    bindE (.error e) f = .error e := rfl

theorem jsGet_ok (v : JSValue) (k : String) (h : notNullish v = true) :
    jsGet v k = .ok (jsGetT v k) := by
  cases v <;> simp_all [jsGet, jsGetT, notNullish]

theorem jsGetOpt_eq (v : JSValue) (k : String) :
    jsGetOpt v k = .ok (jsGetOptT v k) := by
  cases v <;> rfl

theorem notNullish_of_truthy (v : JSValue) (h : truthy v = true) :
    notNullish v = true := by
  cases v <;> simp_all [truthy, notNullish]

theorem notNullish_jsOr (v d : JSValue) (h : notNullish d = true) :
    notNullish (jsOr v d) = true := by
  unfold jsOr
  by_cases ht : truthy v = true
  · rw [if_pos ht]; exact notNullish_of_truthy v ht
  · rw [if_neg ht]; exact h

/-! ## The renderer never throws on non-nullish timeline entries -/

theorem renderTargetPart_ok (d : JSValue) (hd : notNullish d = true) (st : OutState) :
    ∃ st', renderTargetPart st d = .ok st' := by
  unfold renderTargetPart
  rw [jsGet_ok d "target" hd, bindE_ok]
  by_cases hg : truthy (jsGetT d "target") = true ∧ typeofStr (jsGetT d "target") = "object"
  · rw [if_pos hg, jsGet_ok _ "hints" (notNullish_of_truthy _ hg.1), bindE_ok]
    have hh : notNullish (jsOr (jsGetT (jsGetT d "target") "hints") (.obj [])) = true :=
      notNullish_jsOr _ _ rfl
    dsimp only
    rw [jsGet_ok _ "text_exact" hh, bindE_ok, jsGet_ok _ "text_partial" hh, bindE_ok,
        jsGet_ok _ "text_contains" hh, bindE_ok]
    split <;> split <;> exact ⟨_, rfl⟩
  · rw [if_neg hg]; exact ⟨st, rfl⟩

theorem renderResultPart_ok (r : JSValue) (hr : notNullish r = true) (st : OutState) :
    ∃ st', renderResultPart st r = .ok st' := by
  unfold renderResultPart
  rw [jsGet_ok r "next" hr, bindE_ok]
  by_cases hg : truthy (jsGetT r "next") = true ∧ jsStrictEqStr (jsGetT r "next") "continue" = false
  · rw [if_pos hg, jsGet_ok r "reason" hr, bindE_ok]; exact ⟨_, rfl⟩
  · rw [if_neg hg, jsGet_ok r "clicked" hr, bindE_ok]
    by_cases hc : truthy (jsGetT r "clicked") = true
    · rw [if_pos hc, jsGet_ok _ "name" (notNullish_of_truthy _ hc), bindE_ok,
          jsGet_ok _ "id" (notNullish_of_truthy _ hc), bindE_ok,
          jsGet_ok _ "hit_state" (notNullish_of_truthy _ hc), bindE_ok]
      exact ⟨_, rfl⟩
    · rw [if_neg hc]; exact ⟨st, rfl⟩

theorem renderAssistantPart_ok (v : JSValue) (hv : notNullish v = true) (st : OutState) :
    ∃ st', renderAssistantPart st v = .ok st' := by
  unfold renderAssistantPart
  rw [jsGet_ok v "assistant" hv, bindE_ok]
  by_cases ha : truthy (jsGetT v "assistant") = true
  · rw [if_pos ha, jsGet_ok _ "parsed" (notNullish_of_truthy _ ha), bindE_ok,
        jsGet_ok _ "raw" (notNullish_of_truthy _ ha), bindE_ok]
    exact ⟨_, rfl⟩
  · rw [if_neg ha]; exact ⟨st, rfl⟩

theorem renderEntry_ok (v : JSValue) (hv : notNullish v = true) (st : OutState) :
    ∃ st', renderEntry st v = .ok st' := by
  unfold renderEntry
  rw [jsGet_ok v "iteration" hv, bindE_ok, jsGet_ok v "decision" hv, bindE_ok]
  have hdn : notNullish (jsOr (jsGetT v "decision") (.obj [])) = true :=
    notNullish_jsOr _ _ rfl
  dsimp only
  rw [jsGet_ok _ "action" hdn, bindE_ok, jsGet_ok _ "reason" hdn, bindE_ok,
      jsGet_ok _ "summary" hdn, bindE_ok, jsGet_ok _ "target" hdn, bindE_ok,
      jsGetOpt_eq, bindE_ok]
  obtain ⟨st1, h1⟩ := renderTargetPart_ok _ hdn (logLine st _)
  rw [h1, bindE_ok, jsGet_ok v "result" hv, bindE_ok]
  obtain ⟨st2, h2⟩ := renderResultPart_ok (jsOr (jsGetT v "result") (.obj []))
    (notNullish_jsOr _ _ rfl) st1
  rw [h2, bindE_ok]
  exact renderAssistantPart_ok v hv st2

theorem renderTimeline_ok (l : List JSValue) (hl : ∀ v ∈ l, notNullish v = true)
    (st : OutState) : ∃ st', renderTimeline st l = .ok st' := by
  induction l generalizing st with
  | nil => exact ⟨st, rfl⟩
  | cons e es ih =>
    obtain ⟨st1, h1⟩ := renderEntry_ok e (hl e (by simp)) st
    obtain ⟨st2, h2⟩ := ih (fun v hv => hl v (by simp [hv])) st1
    exact ⟨st2, by rw [renderTimeline, h1, bindE_ok, h2]⟩

/-! ## Object lookup lemmas for the encoded data model -/

theorem objGet_cons (k k1 : String) (x : JSValue) (rest : List (String × JSValue)) :
    objGet ((k1, x) :: rest) k = if (k == k1) = true then x else objGet rest k := by
  rcases h : k == k1 <;> simp [objGet, List.lookup, h]

theorem objGet_optField_ne (k k1 : String) (v : Option JSValue)
    (rest : List (String × JSValue)) (h : (k == k1) = false) :
    objGet (optField k1 v ++ rest) k = objGet rest k := by
  cases v with
  | none => rfl
  | some x =>
    simp only [optField, List.cons_append, List.nil_append, objGet_cons, h]
    simp

theorem objGet_optField_self (k : String) (v : Option JSValue)
    (rest : List (String × JSValue)) :
    objGet (optField k v ++ rest) k =
      (match v with
       | some x => x
       | none => objGet rest k) := by
  cases v with
  | none => rfl
  | some x => simp [optField, objGet_cons]

theorem encodeRun_timeline (r : RunResultR) :
    objGet (encodeRunFields r) "timeline" =
      (match r.timeline with
       | some l => .arr (l.map encodeEntry)
       | none => .undefined) := by
  unfold encodeRunFields
  rw [List.append_assoc, List.append_assoc, List.append_assoc, List.append_assoc]
  rw [objGet_optField_ne _ _ _ _ (by decide), objGet_optField_ne _ _ _ _ (by decide),
      objGet_optField_ne _ _ _ _ (by decide), objGet_optField_ne _ _ _ _ (by decide),
      objGet_optField_self]
  cases r.timeline with
  | some l => rfl
  | none => cases r.completeHistory <;> rfl

theorem notNullish_encodeEntry (e : TimelineEntryR) :
    notNullish (encodeEntry e) = true := rfl

theorem effStatus_obj (fs : List (String × JSValue)) :
    effStatus (.obj fs) = .ok (effStatusT fs) := by
  unfold effStatus effStatusT
  rw [jsGet_ok (JSValue.obj fs) "status" rfl, bindE_ok]
  dsimp only [jsGetT]
  by_cases h : truthy (objGet fs "status") = true
  · rw [if_pos h, if_pos h]
  · rw [if_neg h, if_neg h, jsGet_ok (JSValue.obj fs) "ok" rfl, bindE_ok]
    dsimp only [jsGetT]

theorem markerStep_nil (st : OutState) :
    markerStep st [] = logLine st "[nerovaagent] timeline: <empty>" := rfl

theorem renderTimeline_nil (st : OutState) : renderTimeline st [] = .ok st := rfl

theorem markerStep_shape (l : List JSValue) :
    ∃ dm, ∀ st : OutState, markerStep st l = ⟨st.lines ++ dm, st.errLines, st.exitCode⟩ := by
  unfold markerStep
  by_cases h : l.isEmpty = true
  · exact ⟨["[nerovaagent] timeline: <empty>"], fun st => by rw [if_pos h]; rfl⟩
  · exact ⟨[], fun st => by rw [if_neg h]; cases st; simp⟩

theorem outState_eta (st : OutState) :
    st = (⟨st.lines ++ [], st.errLines, st.exitCode⟩ : OutState) := by
  cases st
  simp

theorem markerStep_errLines (st : OutState) (l : List JSValue) :
    (markerStep st l).errLines = st.errLines := by
  unfold markerStep
  split <;> rfl

theorem markerStep_exitCode (st : OutState) (l : List JSValue) :
    (markerStep st l).exitCode = st.exitCode := by
  unfold markerStep
  split <;> rfl

theorem historyStep_shape (ch : JSValue) :
    ∃ dh, ∀ st : OutState, historyStep st ch = ⟨st.lines ++ dh, st.errLines, st.exitCode⟩ := by
  unfold historyStep
  rcases ch with _ | _ | b | n | s | xs | gs
  all_goals try exact ⟨[], outState_eta⟩
  rcases xs with _ | ⟨y, ys⟩
  · exact ⟨[], outState_eta⟩
  · exact ⟨[" complete history: " ++ jsArrayJoin " | " (y :: ys)], fun st => rfl⟩

theorem statusStep_completed {status : JSValue}
    (h : jsStrictEqStr status "completed" = true) (st : OutState) :
    statusStep status st = .ok st := by
  unfold statusStep
  rw [if_pos h]

theorem statusStep_failed {status : JSValue}
    (h : jsStrictEqStr status "completed" = false) (st : OutState) :
    statusStep status st =
      .ok (errLine { st with exitCode := some 1 }
        ("[nerovaagent] run finished with status " ++ jsToString status ++
          ". Inspect timeline for details.")) := by
  unfold statusStep
  rw [if_neg (by simp [h])]

/-- The renderer succeeds on any object payload whose (parsed) timeline
holds only non-nullish entries. -/
theorem renderRunResult_obj_ok (fs : List (String × JSValue)) (st : OutState)
    (h : ∀ v ∈ timelineList (objGet fs "timeline"), notNullish v = true) :
    ∃ out, renderRunResult st (.obj fs) = .ok out := by
  unfold renderRunResult
  rw [if_neg (by simp [truthy, typeofStr])]
  rw [effStatus_obj, bindE_ok, jsGet_ok (JSValue.obj fs) "iterations" rfl, bindE_ok,
      jsGet_ok (JSValue.obj fs) "agent" rfl, bindE_ok, jsGetOpt_eq, bindE_ok]
  dsimp only
  rw [jsGet_ok (JSValue.obj fs) "timeline" rfl, bindE_ok]
  dsimp only [jsGetT]
  obtain ⟨stm, hm⟩ := renderTimeline_ok _ h _
  rw [hm, bindE_ok, jsGet_ok (JSValue.obj fs) "completeHistory" rfl, bindE_ok]
  unfold statusStep
  split <;> exact ⟨_, rfl⟩

/-! ## Rendering steps are state-uniform (determinism infrastructure) -/

theorem exitJoin_none (old : Option Nat) : exitJoin none old = old := rfl

theorem exitJoin_assoc (x2 x1 old : Option Nat) :
    exitJoin x2 (exitJoin x1 old) = exitJoin (exitJoin x2 x1) old := by
  cases x2 <;> rfl

theorem linesOnly_log (s : String) :
    LinesOnlyStep (fun st => .ok (logLine st s)) :=
  Or.inr ⟨[s], fun _ => rfl⟩

theorem linesOnly_id : LinesOnlyStep (fun st => .ok st) :=
  Or.inr ⟨[], fun st => by cases st; simp⟩

theorem linesOnly_ite (C : Prop) [Decidable C] (L : String) :
    LinesOnlyStep (fun st => if C then Except.ok (logLine st L) else .ok st) := by
  by_cases h : C
  · simp only [if_pos h]; exact linesOnly_log L
  · simp only [if_neg h]; exact linesOnly_id

theorem LinesOnlyStep.seq {f g : OutState → Except JsErr OutState}
    (hf : LinesOnlyStep f) (hg : LinesOnlyStep g) :
    LinesOnlyStep (fun st => bindE (f st) g) := by
  rcases hf with ⟨e, he⟩ | ⟨dl, hd⟩
  · exact Or.inl ⟨e, fun st => by dsimp only; rw [he st, bindE_error]⟩
  · rcases hg with ⟨e, he⟩ | ⟨dg, hdg⟩
    · exact Or.inl ⟨e, fun st => by dsimp only; rw [hd st, bindE_ok, he]⟩
    · exact Or.inr ⟨dl ++ dg, fun st => by
        dsimp only
        rw [hd st, bindE_ok, hdg]
        simp [List.append_assoc]⟩

theorem LinesOnlyStep.seqLog {h : OutState → Except JsErr OutState}
    (hh : LinesOnlyStep h) (s : String) :
    LinesOnlyStep (fun st => h (logLine st s)) := by
  rcases hh with ⟨e, he⟩ | ⟨dl, hd⟩
  · exact Or.inl ⟨e, fun st => he _⟩
  · exact Or.inr ⟨s :: dl, fun st => by
      dsimp only
      rw [hd (logLine st s)]
      simp [logLine]⟩

theorem linesOnly_renderTargetPart (d : JSValue) :
    LinesOnlyStep (fun st => renderTargetPart st d) := by
  unfold renderTargetPart
  rcases hg : jsGet d "target" with e | t
  · exact Or.inl ⟨e, fun st => rfl⟩
  · simp only [hg, bindE_ok]
    by_cases hc : truthy t = true ∧ typeofStr t = "object"
    · simp only [if_pos hc]
      rcases hh : jsGet t "hints" with e | hv
      · exact Or.inl ⟨e, fun st => rfl⟩
      · simp only [hh, bindE_ok]
        have hnn : notNullish (jsOr hv (.obj [])) = true := notNullish_jsOr _ _ rfl
        simp only [jsGet_ok _ _ hnn, bindE_ok]
        exact linesOnly_ite _ _
    · simp only [if_neg hc]
      exact linesOnly_id

theorem linesOnly_renderResultPart (r : JSValue) :
    LinesOnlyStep (fun st => renderResultPart st r) := by
  unfold renderResultPart
  rcases hn : jsGet r "next" with e | next
  · exact Or.inl ⟨e, fun st => rfl⟩
  · simp only [hn, bindE_ok]
    by_cases hc : truthy next = true ∧ jsStrictEqStr next "continue" = false
    · simp only [if_pos hc]
      rcases hr : jsGet r "reason" with e | reason
      · exact Or.inl ⟨e, fun st => rfl⟩
      · simp only [hr, bindE_ok]
        exact linesOnly_log _
    · simp only [if_neg hc]
      rcases hk : jsGet r "clicked" with e | clicked
      · exact Or.inl ⟨e, fun st => rfl⟩
      · simp only [hk, bindE_ok]
        by_cases ht : truthy clicked = true
        · simp only [if_pos ht]
          rcases h1 : jsGet clicked "name" with e | nm
          · exact Or.inl ⟨e, fun st => rfl⟩
          · simp only [h1, bindE_ok]
            rcases h2 : jsGet clicked "id" with e | idv
            · exact Or.inl ⟨e, fun st => rfl⟩
            · simp only [h2, bindE_ok]
              rcases h3 : jsGet clicked "hit_state" with e | hs
              · exact Or.inl ⟨e, fun st => rfl⟩
              · simp only [h3, bindE_ok]
                exact linesOnly_log _
        · simp only [if_neg ht]
          exact linesOnly_id

theorem linesOnly_renderAssistantPart (v : JSValue) :
    LinesOnlyStep (fun st => renderAssistantPart st v) := by
  unfold renderAssistantPart
  rcases ha : jsGet v "assistant" with e | assistant
  · exact Or.inl ⟨e, fun st => rfl⟩
  · simp only [ha, bindE_ok]
    by_cases ht : truthy assistant = true
    · simp only [if_pos ht]
      rcases h1 : jsGet assistant "parsed" with e | p
      · exact Or.inl ⟨e, fun st => rfl⟩
      · simp only [h1, bindE_ok]
        rcases h2 : jsGet assistant "raw" with e | raw
        · exact Or.inl ⟨e, fun st => rfl⟩
        · simp only [h2, bindE_ok]
          exact linesOnly_log _
    · simp only [if_neg ht]
      exact linesOnly_id

theorem linesOnly_renderEntry (v : JSValue) :
    LinesOnlyStep (fun st => renderEntry st v) := by
  unfold renderEntry
  rcases h1 : jsGet v "iteration" with e | iterRaw
  · exact Or.inl ⟨e, fun st => rfl⟩
  · simp only [h1, bindE_ok]
    rcases h2 : jsGet v "decision" with e | decisionRaw
    · exact Or.inl ⟨e, fun st => rfl⟩
    · simp only [h2, bindE_ok]
      have hdn : notNullish (jsOr decisionRaw (.obj [])) = true := notNullish_jsOr _ _ rfl
      simp only [jsGet_ok _ _ hdn, bindE_ok, jsGetOpt_eq]
      refine LinesOnlyStep.seqLog (LinesOnlyStep.seq (linesOnly_renderTargetPart _) ?_) _
      rcases h3 : jsGet v "result" with e | resultRaw
      · exact Or.inl ⟨e, fun st => rfl⟩
      · simp only [h3, bindE_ok]
        exact LinesOnlyStep.seq (linesOnly_renderResultPart _) (linesOnly_renderAssistantPart _)

theorem linesOnly_renderTimeline (l : List JSValue) :
    LinesOnlyStep (fun st => renderTimeline st l) := by
  induction l with
  | nil => exact linesOnly_id
  | cons e es ih =>
    show LinesOnlyStep (fun st => bindE (renderEntry st e) fun st2 => renderTimeline st2 es)
    exact LinesOnlyStep.seq (linesOnly_renderEntry e) ih

theorem LinesOnlyStep.toUniform {f : OutState → Except JsErr OutState}
    (hf : LinesOnlyStep f) : UniformStep f := by
  rcases hf with ⟨e, he⟩ | ⟨dl, hd⟩
  · exact Or.inl ⟨e, he⟩
  · exact Or.inr ⟨dl, [], none, fun st => by rw [hd st]; simp [exitJoin]⟩

theorem UniformStep.comp {f g : OutState → Except JsErr OutState}
    (hf : UniformStep f) (hg : UniformStep g) :
    UniformStep (fun st => bindE (f st) g) := by
  rcases hf with ⟨e, he⟩ | ⟨dl, de, x, hd⟩
  · exact Or.inl ⟨e, fun st => by dsimp only; rw [he st, bindE_error]⟩
  · rcases hg with ⟨e, he⟩ | ⟨dl2, de2, x2, hd2⟩
    · exact Or.inl ⟨e, fun st => by dsimp only; rw [hd st, bindE_ok, he]⟩
    · exact Or.inr ⟨dl ++ dl2, de ++ de2, exitJoin x2 x, fun st => by
        dsimp only
        rw [hd st, bindE_ok, hd2]
        simp [List.append_assoc, exitJoin_assoc]⟩

theorem UniformStep.compLog {h : OutState → Except JsErr OutState}
    (hh : UniformStep h) (s : String) :
    UniformStep (fun st => h (logLine st s)) := by
  rcases hh with ⟨e, he⟩ | ⟨dl, de, x, hd⟩
  · exact Or.inl ⟨e, fun st => he _⟩
  · exact Or.inr ⟨s :: dl, de, x, fun st => by
      dsimp only
      rw [hd (logLine st s)]
      simp [logLine]⟩

theorem uniform_fail (msg : String) :
    UniformStep (fun st => .ok (errLine { st with exitCode := some 1 } msg)) :=
  Or.inr ⟨[], [msg], some 1, fun st => by cases st; simp [errLine, exitJoin]⟩

theorem uniform_ok_id : UniformStep (fun st => .ok st) :=
  LinesOnlyStep.toUniform linesOnly_id

theorem UniformStep.compPre {h : OutState → Except JsErr OutState}
    (hh : UniformStep h) {g : OutState → OutState} {dg : List String}
    (hg : ∀ st : OutState, g st = ⟨st.lines ++ dg, st.errLines, st.exitCode⟩) :
    UniformStep (fun st => h (g st)) := by
  rcases hh with ⟨e, he⟩ | ⟨dl, de, x, hd⟩
  · exact Or.inl ⟨e, fun st => he _⟩
  · exact Or.inr ⟨dg ++ dl, de, x, fun st => by
      dsimp only
      rw [hg st, hd]
      simp [List.append_assoc]⟩

theorem markerLog_shape (s : String) (l : List JSValue) :
    ∃ dg, ∀ st : OutState,
      markerStep (logLine st s) l = ⟨st.lines ++ dg, st.errLines, st.exitCode⟩ := by
  obtain ⟨dm, hm⟩ := markerStep_shape l
  exact ⟨s :: dm, fun st => by rw [hm (logLine st s)]; simp [logLine]⟩

theorem uniform_statusStep (status : JSValue) :
    UniformStep (fun st => statusStep status st) := by
  rcases hb : jsStrictEqStr status "completed" with _ | _
  · refine Or.inr ⟨[], ["[nerovaagent] run finished with status " ++ jsToString status ++
        ". Inspect timeline for details."], some 1, fun st => ?_⟩
    dsimp only
    rw [statusStep_failed hb]
    cases st
    simp [errLine, exitJoin]
  · exact Or.inr ⟨[], [], none, fun st => by
      dsimp only
      rw [statusStep_completed hb]
      cases st
      simp [exitJoin]⟩

/-- The whole renderer is a state-uniform step: what it prints, what it
writes to stderr, and whether it fails the process depend only on the run
payload, never on previously printed output. -/
theorem uniform_renderRunResult (run : JSValue) :
    UniformStep (fun st => renderRunResult st run) := by
  unfold renderRunResult
  by_cases hobj : truthy run = false ∨ typeofStr run ≠ "object"
  · simp only [if_pos hobj]
    exact LinesOnlyStep.toUniform (linesOnly_log _)
  · simp only [if_neg hobj]
    rcases hs : effStatus run with e | status
    · exact Or.inl ⟨e, fun st => rfl⟩
    · simp only [hs, bindE_ok]
      rcases hi : jsGet run "iterations" with e | iters
      · exact Or.inl ⟨e, fun st => rfl⟩
      · simp only [hi, bindE_ok]
        rcases ha : jsGet run "agent" with e | agent
        · exact Or.inl ⟨e, fun st => rfl⟩
        · simp only [ha, bindE_ok, jsGetOpt_eq]
          rcases ht : jsGet run "timeline" with e | tl
          · exact Or.inl ⟨e, fun st => rfl⟩
          · simp only [ht, bindE_ok]
            have tail : UniformStep (fun st =>
                bindE (jsGet run "completeHistory") fun ch =>
                statusStep status (historyStep st ch)) := by
              rcases hc : jsGet run "completeHistory" with e | ch
              · exact Or.inl ⟨e, fun st => rfl⟩
              · simp only [hc, bindE_ok]
                obtain ⟨dh, hh⟩ := historyStep_shape ch
                exact UniformStep.compPre (uniform_statusStep status) hh
            obtain ⟨dg, hg⟩ := markerLog_shape
              ("[nerovaagent] status=" ++ jsToString status ++
                " iterations=" ++ jsToString (nullishD iters (.str "n/a")) ++
                " agent=" ++ jsToString (nullishD (jsGetOptT agent "id") (.str "unknown")))
              (timelineList tl)
            exact UniformStep.compPre
              (UniformStep.comp (LinesOnlyStep.toUniform (linesOnly_renderTimeline (timelineList tl))) tail) hg

/-! ## Claim theorems -/

set_option maxHeartbeats 1600000 in
/-- C1: whenever the daemon probe is consulted and reports `false`, a
`start` or `playwright-launch` invocation exits with code 1, prints the
actionable error naming the activation command (`Run nerovaagent first`),
and never issues a request through the runtime client.  (For `start` the
probe runs after prompt/context resolution, so the probe-reported guard is
expressed through the `probed` flag; `playwright-launch` always probes
first.)  Exit code 1 and an empty request list in fact hold on every
daemon-down `start` path. -/
theorem C1_daemon_gate (w : World) (o : ParsedOptions) (h : w.daemonRunning = false) :
    ((handleStart w o).requests = [] ∧ (handleStart w o).finalExit = 1 ∧
      ((handleStart w o).probed = true → (handleStart w o).err = [daemonNotRunningMsg])) ∧
    ((handlePlaywrightLaunch w).requests = [] ∧ (handlePlaywrightLaunch w).finalExit = 1 ∧
      (handlePlaywrightLaunch w).probed = true ∧
      (handlePlaywrightLaunch w).err = [daemonNotRunningMsg]) := by
  constructor
  · unfold handleStart
    rw [h]
    dsimp only
    repeat' split
    all_goals simp_all [CliOutcome.finalExit, missingPromptOutcome]
  · unfold handlePlaywrightLaunch
    rw [h]
    simp [CliOutcome.finalExit]

theorem C1_daemon_gate_witness :
    ((handleStart wDown oHello).requests = [] ∧ (handleStart wDown oHello).finalExit = 1 ∧
      ((handleStart wDown oHello).probed = true →
        (handleStart wDown oHello).err = [daemonNotRunningMsg])) ∧
    ((handlePlaywrightLaunch wDown).requests = [] ∧
      (handlePlaywrightLaunch wDown).finalExit = 1 ∧
      (handlePlaywrightLaunch wDown).probed = true ∧
      (handlePlaywrightLaunch wDown).err = [daemonNotRunningMsg]) :=
  C1_daemon_gate wDown oHello rfl

/-- C4 counterexample: the claim says every recognized flag immediately
followed by a value is consumed with that value, but for the following
token `""` (a value) the guard `token === '--prompt' && next` is falsy, so
`--prompt` is NOT consumed: no prompt is parsed and both tokens land in
the positional sequence. -/
theorem C4_counterexample :
    (parseArgs ["--prompt", ""]).prompt = none ∧
    (parseArgs ["--prompt", ""]).positional = ["--prompt", ""] := by
  constructor <;> rfl

/-- C4 (amended): every recognized flag immediately followed by a
*non-empty* value is consumed together with that value as a flag/value
pair; a recognized flag appearing as the last token is not consumed and
appears in the positional sequence; a recognized flag followed by the
empty-string token is likewise not consumed as a flag — it falls through
to the positional sequence and parsing resumes at the empty token;
parsing is a total function (never an error). -/
theorem C4_amended_parse :
    (∀ (acc : ParsedOptions) (f v : String) (rest : List String),
        f ∈ recognizedFlags → v ≠ "" →
        parseArgsGo acc (f :: v :: rest) = parseArgsGo (setFlag acc f v) rest) ∧
    (∀ (acc : ParsedOptions) (f : String), f ∈ recognizedFlags →
        parseArgsGo acc [f] = { acc with positional := acc.positional ++ [f] }) ∧
    (∀ (acc : ParsedOptions) (f : String) (rest : List String), f ∈ recognizedFlags →
        parseArgsGo acc (f :: "" :: rest) =
          parseArgsGo { acc with positional := acc.positional ++ [f] } ("" :: rest)) := by
  refine ⟨?_, ?_, ?_⟩
  · intro acc f v rest hf hv
    fin_cases hf <;> simp [parseArgsGo, setFlag, hv]
  · intro acc f _
    rfl
  · intro acc f rest hf
    fin_cases hf <;> simp [parseArgsGo]

theorem C4_amended_parse_witness :
    parseArgsGo emptyOpts ["--prompt", "x", "y"] =
      parseArgsGo (setFlag emptyOpts "--prompt" "x") ["y"] ∧
    parseArgsGo emptyOpts ["--context"] =
      { emptyOpts with positional := emptyOpts.positional ++ ["--context"] } ∧
    parseArgsGo emptyOpts ["--context-file", "", "z"] =
      parseArgsGo { emptyOpts with positional := emptyOpts.positional ++ ["--context-file"] }
        ["", "z"] :=
  ⟨C4_amended_parse.1 emptyOpts "--prompt" "x" ["y"] (by simp [recognizedFlags]) (by decide),
   C4_amended_parse.2.1 emptyOpts "--context" (by simp [recognizedFlags]),
   C4_amended_parse.2.2 emptyOpts "--context-file" ["z"] (by simp [recognizedFlags])⟩

/-- C5: on every run payload drawn from the documented optional-field data
model (any subset of fields absent at every level), the renderer
terminates normally — it never throws.  (This is not vacuous: on payloads
outside the model, e.g. a `null` timeline entry, `renderRunResult`
returns an error.) -/
theorem C5_renderer_total (r : RunResultR) (st : OutState) :
    ∃ out, renderRunResult st (encodeRun r) = .ok out := by
  unfold encodeRun
  apply renderRunResult_obj_ok
  intro v hv
  rw [encodeRun_timeline] at hv
  cases htl : r.timeline with
  | none =>
    rw [htl] at hv
    simp [timelineList] at hv
  | some l =>
    rw [htl] at hv
    dsimp only [timelineList] at hv
    obtain ⟨e, _, hve⟩ := List.mem_map.mp hv
    rw [← hve]
    exact notNullish_encodeEntry e

/-- C9: the renderer is deterministic in its input: rendering the same
payload twice appends the same stdout lines and the same stderr lines,
and reaches the same exit-code decision, independently of the console
state already accumulated. -/
theorem C9_render_deterministic (run : JSValue) (st st1 st2 : OutState)
    (h1 : renderRunResult st run = .ok st1) (h2 : renderRunResult st1 run = .ok st2) :
    st1.lines.drop st.lines.length = st2.lines.drop st1.lines.length ∧
    st1.errLines.drop st.errLines.length = st2.errLines.drop st1.errLines.length ∧
    st2.exitCode = st1.exitCode := by
  rcases uniform_renderRunResult run with ⟨e, he⟩ | ⟨dl, de, x, hd⟩
  · dsimp only at he
    rw [he st] at h1
    exact absurd h1 (by simp)
  · dsimp only at hd
    rw [hd st] at h1
    injection h1 with h1
    subst h1
    rw [hd _] at h2
    injection h2 with h2
    subst h2
    refine ⟨by simp [List.drop_left], by simp [List.drop_left], ?_⟩
    cases x <;> simp [exitJoin]

theorem C9_render_deterministic_witness :
    stNull1.lines.drop out0.lines.length = stNull2.lines.drop stNull1.lines.length ∧
    stNull1.errLines.drop out0.errLines.length = stNull2.errLines.drop stNull1.errLines.length ∧
    stNull2.exitCode = stNull1.exitCode :=
  C9_render_deterministic .null out0 stNull1 stNull2 rfl rfl

/-- C10: a run payload that is not a structured object (nullish, boolean,
number, or string) is printed in serialized form as a single
`Agent response:` line and rendering returns immediately: stderr and
`process.exitCode` are untouched, so the process exit stays successful
regardless of the payload's content. -/
theorem C10_nonobject (v : JSValue) (st : OutState)
    (h : truthy v = false ∨ typeofStr v ≠ "object") :
    renderRunResult st v =
      .ok ⟨st.lines ++ ["Agent response: " ++ consoleJson v], st.errLines, st.exitCode⟩ := by
  unfold renderRunResult
  rw [if_pos h]
  rfl

theorem C10_nonobject_witness :
    renderRunResult out0 (.str "boom") =
      .ok ⟨["Agent response: " ++ consoleJson (.str "boom")], [], none⟩ :=
  C10_nonobject (.str "boom") out0 (Or.inr (by decide))

/-- C8: whenever the run object's timeline is the empty array (or the
field is absent), the renderer prints the explicit
`[nerovaagent] timeline: <empty>` marker instead of printing nothing; and
on the concrete payload `{status: "failed", timeline: []}` it prints the
marker and sets `process.exitCode = 1`. -/
theorem C8_empty_timeline :
    (∀ (fs : List (String × JSValue)) (st : OutState),
      objGet fs "timeline" = .arr [] ∨ objGet fs "timeline" = .undefined →
      ∃ out, renderRunResult st (.obj fs) = .ok out ∧
        "[nerovaagent] timeline: <empty>" ∈ out.lines) ∧
    renderRunResult out0 (.obj c8Fields) =
      .ok ⟨["[nerovaagent] status=failed iterations=n/a agent=unknown",
            "[nerovaagent] timeline: <empty>"],
           ["[nerovaagent] run finished with status failed. Inspect timeline for details."],
           some 1⟩ := by
  constructor
  · intro fs st h
    have htl : timelineList (objGet fs "timeline") = [] := by
      rcases h with h | h <;> rw [h] <;> rfl
    unfold renderRunResult
    rw [if_neg (by simp [truthy, typeofStr])]
    rw [effStatus_obj, bindE_ok, jsGet_ok (JSValue.obj fs) "iterations" rfl, bindE_ok,
        jsGet_ok (JSValue.obj fs) "agent" rfl, bindE_ok, jsGetOpt_eq, bindE_ok]
    dsimp only
    rw [jsGet_ok (JSValue.obj fs) "timeline" rfl, bindE_ok]
    dsimp only [jsGetT]
    rw [htl, markerStep_nil, renderTimeline_nil, bindE_ok,
        jsGet_ok (JSValue.obj fs) "completeHistory" rfl, bindE_ok]
    obtain ⟨dh, hh⟩ := historyStep_shape (jsGetT (JSValue.obj fs) "completeHistory")
    rw [hh]
    unfold statusStep
    split <;> exact ⟨_, rfl, by simp [logLine, errLine]⟩
  · rfl

theorem C8_empty_timeline_witness :
    ∃ out, renderRunResult out0 (.obj [("timeline", .arr [])]) = .ok out ∧
      "[nerovaagent] timeline: <empty>" ∈ out.lines :=
  C8_empty_timeline.1 [("timeline", .arr [])] out0 (Or.inl rfl)

/-- C3 counterexample: on `{status: "", ok: true}` the `status` field is
present and differs from `"completed"`, so the claim demands a non-zero
exit code; but line 167's `run.status || ...` treats the present empty
string as absent, the effective status becomes `"completed"`, and the
renderer leaves the exit code successful (`exitCode = none`, no
diagnostic). -/
theorem C3_counterexample :
    renderRunResult out0 (.obj cexC3Fields) =
      .ok ⟨["[nerovaagent] status=completed iterations=n/a agent=unknown",
            "[nerovaagent] timeline: <empty>"], [], none⟩ ∧
    cexC3Fields.lookup "status" = some (.str "") ∧ ("" : String) ≠ "completed" :=
  ⟨rfl, rfl, by decide⟩

/-- C3 (amended): the effective status equals the `status` field when that
field is present *and truthy* (for strings: non-empty); else `"completed"`
when `ok` is truthy; else `"unknown"`.  The renderer leaves the process
exit code successful iff the effective status is the literal string
`"completed"`; any other effective status sets `process.exitCode = 1` and
emits the diagnostic pointing at the timeline. -/
theorem C3_amended_status (fs : List (String × JSValue)) (out : OutState)
    (h : renderRunResult out0 (.obj fs) = .ok out) :
    effStatusT fs = specEffStatusAmended fs ∧
    (jsStrictEqStr (effStatusT fs) "completed" = true →
      out.exitCode = none ∧ out.errLines = []) ∧
    (jsStrictEqStr (effStatusT fs) "completed" = false →
      out.exitCode = some 1 ∧ out.errLines = [statusDiagLine fs]) := by
  have hspec : effStatusT fs = specEffStatusAmended fs := by
    unfold effStatusT specEffStatusAmended
    rcases hl : fs.lookup "status" with _ | v <;> simp [objGet, hl, truthy]
  unfold renderRunResult at h
  rw [if_neg (by simp [truthy, typeofStr])] at h
  rw [effStatus_obj, bindE_ok, jsGet_ok (JSValue.obj fs) "iterations" rfl, bindE_ok,
      jsGet_ok (JSValue.obj fs) "agent" rfl, bindE_ok, jsGetOpt_eq, bindE_ok] at h
  dsimp only at h
  rw [jsGet_ok (JSValue.obj fs) "timeline" rfl, bindE_ok] at h
  rcases linesOnly_renderTimeline (timelineList (jsGetT (JSValue.obj fs) "timeline")) with
    ⟨e, he⟩ | ⟨dl, hd⟩
  · dsimp only at he
    rw [he] at h
    exact absurd h (by simp [bindE])
  · dsimp only at hd
    rw [hd, bindE_ok, jsGet_ok (JSValue.obj fs) "completeHistory" rfl, bindE_ok] at h
    obtain ⟨dh, hh⟩ := historyStep_shape (jsGetT (JSValue.obj fs) "completeHistory")
    rw [hh] at h
    rcases hst : jsStrictEqStr (effStatusT fs) "completed" with _ | _
    · rw [statusStep_failed hst] at h
      injection h with h
      refine ⟨hspec, fun ht => absurd ht (by decide), fun _ => ?_⟩
      rw [← h]
      constructor <;>
        simp [errLine, markerStep_errLines, markerStep_exitCode, logLine, out0, statusDiagLine]
    · rw [statusStep_completed hst] at h
      injection h with h
      refine ⟨hspec, fun _ => ?_, fun hf => absurd hf (by decide)⟩
      rw [← h]
      constructor <;>
        simp [errLine, markerStep_errLines, markerStep_exitCode, logLine, out0, statusDiagLine]

theorem C3_amended_status_witness :
    effStatusT [("status", .str "failed")] = specEffStatusAmended [("status", .str "failed")] ∧
    (jsStrictEqStr (effStatusT [("status", .str "failed")]) "completed" = true →
      (⟨["[nerovaagent] status=failed iterations=n/a agent=unknown",
         "[nerovaagent] timeline: <empty>"],
        ["[nerovaagent] run finished with status failed. Inspect timeline for details."],
        some 1⟩ : OutState).exitCode = none ∧
      (⟨["[nerovaagent] status=failed iterations=n/a agent=unknown",
         "[nerovaagent] timeline: <empty>"],
        ["[nerovaagent] run finished with status failed. Inspect timeline for details."],
        some 1⟩ : OutState).errLines = []) ∧
    (jsStrictEqStr (effStatusT [("status", .str "failed")]) "completed" = false →
      (⟨["[nerovaagent] status=failed iterations=n/a agent=unknown",
         "[nerovaagent] timeline: <empty>"],
        ["[nerovaagent] run finished with status failed. Inspect timeline for details."],
        some 1⟩ : OutState).exitCode = some 1 ∧
      (⟨["[nerovaagent] status=failed iterations=n/a agent=unknown",
         "[nerovaagent] timeline: <empty>"],
        ["[nerovaagent] run finished with status failed. Inspect timeline for details."],
        some 1⟩ : OutState).errLines = [statusDiagLine [("status", .str "failed")]]) :=
  C3_amended_status [("status", .str "failed")] _ rfl

theorem intercalate_nil_str (sep : String) : sep.intercalate [] = "" := rfl

theorem jsToStringL_strs (l : List String) : jsToStringL (l.map .str) = l := by
  induction l with
  | nil => rfl
  | cons a as ih => simp [jsToStringL, jsToString, ih]

/-- C6: for every timeline entry whose decision carries a target with
hints, the emitted target label is the ` | `-joined `text_exact` sequence
when that join is non-empty; else `text_partial`; else the first element
of `text_contains`; and a target line is emitted exactly when the
resulting label is non-empty.  In particular
`text_exact = ["OK", "Cancel"]` yields `"OK | Cancel"`, not the
`text_partial` fallback. -/
theorem C6_target_label :
    (∀ (hs : HintsR) (st : OutState),
      renderTargetPart st (.obj [("target", .obj [("hints", encodeHints hs)])]) =
        .ok (if specTargetLabel hs = "" then st
             else logLine st ("   target: " ++ specTargetLabel hs))) ∧
    specTargetLabel ⟨some ["OK", "Cancel"], some "fallback", none⟩ = "OK | Cancel" := by
  constructor
  · intro hs st
    rcases hs with ⟨te, tp, tc⟩
    rcases te with _ | l <;> rcases tp with _ | p <;> rcases tc with _ | m <;>
      try rcases m with _ | ⟨c, cs⟩
    all_goals
      simp [renderTargetPart, encodeHints, optField, jsGet, bindE, objGet, List.lookup, jsOr,
        truthy, typeofStr, jsArrayJoin, jsToStringL_strs, specTargetLabel, jsToString,
        intercalate_nil_str]
    all_goals try (split_ifs <;> simp_all [jsToString, truthy, intercalate_nil_str])
  · rfl

/-- C7 counterexample: in `{next: "", reason: "why", clicked: {name: "X"}}`
the `next` field is present and is not the literal `"continue"`, so the
claim demands a result line; but the guard `result.next &&` treats the
present empty string as falsy: no result line is printed and the clicked
line is emitted instead. -/
theorem C7_counterexample :
    renderResultPart out0 cexC7Result = .ok ⟨["   clicked: X (state=n/a)"], [], none⟩ ∧
    objGet [("next", .str ""), ("reason", .str "why"),
        ("clicked", .obj [("name", .str "X")])] "next" = .str "" ∧
    JSValue.str "" ≠ .str "continue" :=
  ⟨rfl, rfl, by simp⟩

/-- C7 (amended): the result block emits a result line (next plus, when
non-empty, the reason) exactly when `result.next` is present, *non-empty*
and not the literal `"continue"`; otherwise, when `result.clicked` is
present it emits a clicked-element line using the first non-empty of
name, id, the literal `"candidate"`, with its `hit_state` or `"n/a"`.
In particular `next = "continue"` suppresses the result line even when a
reason is present, and the clicked line is shown instead if present. -/
theorem C7_amended_result_lines (r : ResultR) (st : OutState) :
    renderResultPart st (encodeResult r) =
      .ok ⟨st.lines ++ specResultLines r, st.errLines, st.exitCode⟩ := by
  obtain ⟨stl, ste, stc⟩ := st
  rcases r with ⟨nx, rs, ck⟩
  rcases nx with _ | n <;> rcases rs with _ | rr <;> rcases ck with _ | ⟨cn, ci, ch⟩ <;>
    try (rcases cn with _ | cn1 <;> rcases ci with _ | ci1 <;> rcases ch with _ | ch1)
  all_goals
    simp [renderResultPart, encodeResult, encodeClicked, optField, jsGet, bindE, objGet,
      List.lookup, jsOr, truthy, jsStrictEqStr, specResultLines, clickedLines, jsToString,
      logLine]
  all_goals try (split_ifs <;> simp_all [jsToString, truthy, logLine])

/-- The seven flag branches of `parseArgsGo` only store non-empty values,
so parsed options never carry `some ""`. -/
theorem parseArgsGo_wf (n : Nat) : ∀ (l : List String), l.length ≤ n → ∀ (acc : ParsedOptions),
    (acc.prompt ≠ some "" ∧ acc.promptFile ≠ some "" ∧ acc.context ≠ some "" ∧
      acc.contextFile ≠ some "") →
    ((parseArgsGo acc l).prompt ≠ some "" ∧ (parseArgsGo acc l).promptFile ≠ some "" ∧
      (parseArgsGo acc l).context ≠ some "" ∧ (parseArgsGo acc l).contextFile ≠ some "") := by
  induction n with
  | zero =>
    intro l hl acc hacc
    rcases l with _ | ⟨t, rest⟩
    · exact hacc
    · simp at hl
  | succ n ih =>
    intro l hl acc hacc
    rcases l with _ | ⟨token, rest⟩
    · exact hacc
    · rcases rest with _ | ⟨next, rest2⟩
      · exact hacc
      · have hlen : rest2.length ≤ n := by simp at hl; omega
        have hlen2 : (next :: rest2).length ≤ n := by simp at hl ⊢; omega
        unfold parseArgsGo
        dsimp only
        split_ifs with c1 c2 c3 c4 c5 c6 c7
        · exact ih rest2 hlen _ ⟨hacc.1, by simp [c1.2], hacc.2.2.1, hacc.2.2.2⟩
        · exact ih rest2 hlen _ ⟨by simp [c2.2], hacc.2.1, hacc.2.2.1, hacc.2.2.2⟩
        · exact ih rest2 hlen _ ⟨hacc.1, hacc.2.1, by simp [c3.2], hacc.2.2.2⟩
        · exact ih rest2 hlen _ ⟨hacc.1, hacc.2.1, hacc.2.2.1, by simp [c4.2]⟩
        · exact ih rest2 hlen _ hacc
        · exact ih rest2 hlen _ hacc
        · exact ih rest2 hlen _ hacc
        · exact ih (next :: rest2) hlen2 _ hacc

theorem parseArgs_wf (argv : List String) :
    (parseArgs argv).prompt ≠ some "" ∧ (parseArgs argv).promptFile ≠ some "" ∧
    (parseArgs argv).context ≠ some "" ∧ (parseArgs argv).contextFile ≠ some "" :=
  parseArgsGo_wf argv.length argv le_rfl emptyOpts (by simp [emptyOpts])

/-- Core of claim C2: for well-formed options (as produced by `parseArgs`)
whose prompt/context files are readable, the `start` flow fails with the
missing-prompt error exactly when the amended resolution yields nothing
usable, and otherwise proceeds to the gate and sends the trimmed resolved
prompt. -/
theorem handleStart_prompt_phase (w : World) (o : ParsedOptions)
    (h1 : o.prompt ≠ some "") (h2 : o.promptFile ≠ some "")
    (hpf : ∀ f, o.promptFile = some f → (w.files f).isSome = true)
    (hcf : ∀ f, o.contextFile = some f → (w.files f).isSome = true) :
    (specPromptFails o w → handleStart w o = missingPromptOutcome) ∧
    (∀ s, specPromptAmended o w = some s → jsTrim s ≠ "" →
      (handleStart w o).probed = true ∧
      (w.daemonRunning = true → sentPrompt (handleStart w o) = some (jsTrim s))) := by
  have hctx : ∀ c : Prop,
      ¬((c ∧ truthyOpt o.contextFile = true) ∧ w.files (o.contextFile.getD "") = none) := by
    intro c hcon
    rcases hcfe : o.contextFile with _ | f
    · rw [hcfe] at hcon
      simp [truthyOpt] at hcon
    · rw [hcfe] at hcon
      have hs := hcf f hcfe
      have h2n : w.files f = none := by simpa using hcon.2
      rw [h2n] at hs
      simp at hs
  rcases hp : o.prompt with _ | p
  · -- no --prompt flag
    rcases hpfe : o.promptFile with _ | f
    · -- no prompt file either: positionals decide
      have hspec : specPromptAmended o w =
          (if o.positional ≠ [] then some (String.intercalate " " o.positional) else none) := by
        unfold specPromptAmended
        rw [hp, hpfe]
        simp
      rcases hpos : o.positional with _ | ⟨t, ts⟩
      · constructor
        · intro _
          unfold handleStart
          rw [hp, hpfe, hpos]
          simp [truthyOpt]
        · intro s hs _
          rw [hspec, hpos] at hs
          simp at hs
      · have hspec2 : specPromptAmended o w = some (String.intercalate " " (t :: ts)) := by
          rw [hspec, hpos]
          simp
        by_cases htr : jsTrim (String.intercalate " " (t :: ts)) = ""
        · constructor
          · intro _
            unfold handleStart
            rw [hp, hpfe, hpos]
            by_cases hje : String.intercalate " " (t :: ts) = ""
            · simp [truthyOpt, hje]
            · simp [truthyOpt, hje, htr]
          · intro s hs hstr
            rw [hspec2] at hs
            injection hs with hs
            rw [← hs] at hstr
            exact absurd htr hstr
        · have hje : String.intercalate " " (t :: ts) ≠ "" := by
            intro he
            rw [he] at htr
            exact htr (by decide)
          constructor
          · intro hf
            unfold specPromptFails at hf
            rw [hspec2] at hf
            exact absurd hf htr
          · intro s hs _
            rw [hspec2] at hs
            injection hs with hs
            rw [← hs]
            constructor
            · rcases hd : w.daemonRunning
              · unfold handleStart
                rw [hp, hpfe, hpos]
                (dsimp only; try simp only [Option.getD_some])
                rw [if_neg (hctx _)]
                simp [truthyOpt, hje, htr, hd]
              · rcases hr : w.response with e | res
                · unfold handleStart
                  rw [hp, hpfe, hpos]
                  (dsimp only; try simp only [Option.getD_some])
                  rw [if_neg (hctx _)]
                  simp [truthyOpt, hje, htr, hd, hr]
                · rcases hrr : renderRunResult out0 res with je | stt <;>
                    (unfold handleStart
                     rw [hp, hpfe, hpos]
                     (dsimp only; try simp only [Option.getD_some])
                     rw [if_neg (hctx _)]
                     simp [truthyOpt, hje, htr, hd, hr, hrr])
            · intro hd
              unfold handleStart
              rw [hp, hpfe, hpos]
              (dsimp only; try simp only [Option.getD_some])
              rw [if_neg (hctx _)]
              rcases hr : w.response with e | res
              · simp [truthyOpt, hje, htr, hd, hr, sentPrompt]
              · rcases hrr : renderRunResult out0 res with je | stt <;>
                  simp [truthyOpt, hje, htr, hd, hr, hrr, sentPrompt]
    · -- prompt file present and readable, contents c
      have hfne : f ≠ "" := by
        intro he
        exact h2 (by rw [hpfe, he])
      obtain ⟨c, hc⟩ := Option.isSome_iff_exists.mp (hpf f hpfe)
      by_cases hce : c = ""
      · -- empty file contents fall through to the positionals
        have hspec : specPromptAmended o w =
            (if o.positional ≠ [] then some (String.intercalate " " o.positional) else none) := by
          unfold specPromptAmended
          rw [hp, hpfe]
          simp [hc, hce]
        rcases hpos : o.positional with _ | ⟨t, ts⟩
        · constructor
          · intro _
            unfold handleStart
            rw [hp, hpfe, hpos]
            (dsimp only; try simp only [Option.getD_some])
            rw [hc]
            simp [truthyOpt, hfne, hce]
          · intro s hs _
            rw [hspec, hpos] at hs
            simp at hs
        · have hspec2 : specPromptAmended o w = some (String.intercalate " " (t :: ts)) := by
            rw [hspec, hpos]
            simp
          by_cases htr : jsTrim (String.intercalate " " (t :: ts)) = ""
          · constructor
            · intro _
              unfold handleStart
              rw [hp, hpfe, hpos]
              (dsimp only; try simp only [Option.getD_some])
              rw [hc]
              by_cases hje : String.intercalate " " (t :: ts) = ""
              · simp [truthyOpt, hfne, hce, hje]
              · simp [truthyOpt, hfne, hce, hje, htr]
            · intro s hs hstr
              rw [hspec2] at hs
              injection hs with hs
              rw [← hs] at hstr
              exact absurd htr hstr
          · have hje : String.intercalate " " (t :: ts) ≠ "" := by
              intro he
              rw [he] at htr
              exact htr (by decide)
            constructor
            · intro hf
              unfold specPromptFails at hf
              rw [hspec2] at hf
              exact absurd hf htr
            · intro s hs _
              rw [hspec2] at hs
              injection hs with hs
              rw [← hs]
              constructor
              · rcases hd : w.daemonRunning
                · unfold handleStart
                  rw [hp, hpfe, hpos]
                  (dsimp only; try simp only [Option.getD_some])
                  rw [hc, if_neg (hctx _)]
                  simp [truthyOpt, hfne, hce, hje, htr, hd]
                · rcases hr : w.response with e | res
                  · unfold handleStart
                    rw [hp, hpfe, hpos]
                    (dsimp only; try simp only [Option.getD_some])
                    rw [hc, if_neg (hctx _)]
                    simp [truthyOpt, hfne, hce, hje, htr, hd, hr]
                  · rcases hrr : renderRunResult out0 res with je | stt <;>
                      (unfold handleStart
                       rw [hp, hpfe, hpos]
                       (dsimp only; try simp only [Option.getD_some])
                       rw [hc, if_neg (hctx _)]
                       simp [truthyOpt, hfne, hce, hje, htr, hd, hr, hrr])
              · intro hd
                unfold handleStart
                rw [hp, hpfe, hpos]
                (dsimp only; try simp only [Option.getD_some])
                rw [hc, if_neg (hctx _)]
                rcases hr : w.response with e | res
                · simp [truthyOpt, hfne, hce, hje, htr, hd, hr, sentPrompt]
                · rcases hrr : renderRunResult out0 res with je | stt <;>
                    simp [truthyOpt, hfne, hce, hje, htr, hd, hr, hrr, sentPrompt]
      · -- non-empty file contents are the resolved prompt
        have hspec2 : specPromptAmended o w = some c := by
          unfold specPromptAmended
          rw [hp, hpfe]
          simp [hc, hce]
        by_cases htr : jsTrim c = ""
        · constructor
          · intro _
            unfold handleStart
            rw [hp, hpfe]
            (dsimp only; try simp only [Option.getD_some])
            rw [hc]
            simp [truthyOpt, hfne, hce, htr]
          · intro s hs hstr
            rw [hspec2] at hs
            injection hs with hs
            rw [← hs] at hstr
            exact absurd htr hstr
        · constructor
          · intro hf
            unfold specPromptFails at hf
            rw [hspec2] at hf
            exact absurd hf htr
          · intro s hs _
            rw [hspec2] at hs
            injection hs with hs
            rw [← hs]
            constructor
            · rcases hd : w.daemonRunning
              · unfold handleStart
                rw [hp, hpfe]
                (dsimp only; try simp only [Option.getD_some])
                rw [hc, if_neg (hctx _)]
                simp [truthyOpt, hfne, hce, htr, hd]
              · rcases hr : w.response with e | res
                · unfold handleStart
                  rw [hp, hpfe]
                  (dsimp only; try simp only [Option.getD_some])
                  rw [hc, if_neg (hctx _)]
                  simp [truthyOpt, hfne, hce, htr, hd, hr]
                · rcases hrr : renderRunResult out0 res with je | stt <;>
                    (unfold handleStart
                     rw [hp, hpfe]
                     (dsimp only; try simp only [Option.getD_some])
                     rw [hc, if_neg (hctx _)]
                     simp [truthyOpt, hfne, hce, htr, hd, hr, hrr])
            · intro hd
              unfold handleStart
              rw [hp, hpfe]
              (dsimp only; try simp only [Option.getD_some])
              rw [hc, if_neg (hctx _)]
              rcases hr : w.response with e | res
              · simp [truthyOpt, hfne, hce, htr, hd, hr, sentPrompt]
              · rcases hrr : renderRunResult out0 res with je | stt <;>
                  simp [truthyOpt, hfne, hce, htr, hd, hr, hrr, sentPrompt]
  · -- --prompt was parsed: it wins outright
    have hpne : p ≠ "" := by
      intro he
      exact h1 (by rw [hp, he])
    have hspec2 : specPromptAmended o w = some p := by
      unfold specPromptAmended
      rw [hp]
    by_cases htr : jsTrim p = ""
    · constructor
      · intro _
        unfold handleStart
        rw [hp]
        simp [truthyOpt, hpne, htr]
      · intro s hs hstr
        rw [hspec2] at hs
        injection hs with hs
        rw [← hs] at hstr
        exact absurd htr hstr
    · constructor
      · intro hf
        unfold specPromptFails at hf
        rw [hspec2] at hf
        exact absurd hf htr
      · intro s hs _
        rw [hspec2] at hs
        injection hs with hs
        rw [← hs]
        constructor
        · rcases hd : w.daemonRunning
          · unfold handleStart
            rw [hp]
            (dsimp only; try simp only [Option.getD_some])
            rw [if_neg (hctx _)]
            simp [truthyOpt, hpne, htr, hd]
          · rcases hr : w.response with e | res
            · unfold handleStart
              rw [hp]
              (dsimp only; try simp only [Option.getD_some])
              rw [if_neg (hctx _)]
              simp [truthyOpt, hpne, htr, hd, hr]
            · rcases hrr : renderRunResult out0 res with je | stt <;>
                (unfold handleStart
                 rw [hp]
                 (dsimp only; try simp only [Option.getD_some])
                 rw [if_neg (hctx _)]
                 simp [truthyOpt, hpne, htr, hd, hr, hrr])
        · intro hd
          unfold handleStart
          rw [hp]
          (dsimp only; try simp only [Option.getD_some])
          rw [if_neg (hctx _)]
          rcases hr : w.response with e | res
          · simp [truthyOpt, hpne, htr, hd, hr, sentPrompt]
          · rcases hrr : renderRunResult out0 res with je | stt <;>
              simp [truthyOpt, hpne, htr, hd, hr, hrr, sentPrompt]

/-- C2 counterexample: with argv `--prompt " " --prompt-file pf` in a world
whose file `pf` contains `"b"`, a `--prompt` flag value IS parsed and the
prompt file DOES yield a non-empty trimmed string, yet the flow fails with
the missing-prompt error — the claimed precedence would resolve the prompt
from the file (or at worst fail only when no source trims non-empty),
but the code takes the truthy-but-whitespace flag value and aborts. -/
theorem C2_counterexample :
    (parseArgs cexC2Argv).prompt = some " " ∧
    (parseArgs cexC2Argv).promptFile = some "pf" ∧
    wUp.files "pf" = some "b" ∧ jsTrim "b" ≠ "" ∧
    handleStart wUp (parseArgs cexC2Argv) = missingPromptOutcome := by
  refine ⟨rfl, rfl, rfl, by decide, rfl⟩

/-- C2 (amended): for every argv whose parsed prompt/context files are
readable, the resolved prompt is the parsed `--prompt` value if present,
else the prompt file contents when non-empty (empty contents fall through),
else the positionals joined by a space (`specPromptAmended`); the flow
fails with the missing-prompt error (exit 1, no request, gate not probed)
exactly when that resolution is absent or trims empty, and otherwise the
flow proceeds to the daemon probe and — when the daemon runs — sends the
trimmed resolved prompt. -/
theorem C2_amended_resolution (w : World) (argv : List String)
    (hpf : ∀ f, (parseArgs argv).promptFile = some f → (w.files f).isSome = true)
    (hcf : ∀ f, (parseArgs argv).contextFile = some f → (w.files f).isSome = true) :
    (handleStart w (parseArgs argv) = missingPromptOutcome ↔
      specPromptFails (parseArgs argv) w) ∧
    (∀ s, specPromptAmended (parseArgs argv) w = some s → jsTrim s ≠ "" →
      (handleStart w (parseArgs argv)).probed = true ∧
      (w.daemonRunning = true →
        sentPrompt (handleStart w (parseArgs argv)) = some (jsTrim s))) := by
  have hwf := parseArgs_wf argv
  have hph := handleStart_prompt_phase w (parseArgs argv) hwf.1 hwf.2.1 hpf hcf
  refine ⟨⟨?_, hph.1⟩, hph.2⟩
  intro hm
  by_contra hnf
  rcases h : specPromptAmended (parseArgs argv) w with _ | s
  · exact hnf (by simp [specPromptFails, h])
  · have hjt : jsTrim s ≠ "" := by
      intro he
      exact hnf (by simp [specPromptFails, h, he])
    have hpr := (hph.2 s h hjt).1
    rw [hm] at hpr
    simp [missingPromptOutcome] at hpr

/-- C2 witness: `--prompt a` with a readable prompt file resolves to `"a"`,
and bare positionals `fix the bug` resolve to `"fix the bug"`. -/
theorem C2_amended_resolution_witness :
    sentPrompt (handleStart wUp (parseArgs ["--prompt", "a", "--prompt-file", "pf"])) =
      some "a" ∧
    sentPrompt (handleStart wUp (parseArgs ["fix", "the", "bug"])) =
      some "fix the bug" := by
  constructor
  · have hpf : ∀ f, (parseArgs ["--prompt", "a", "--prompt-file", "pf"]).promptFile = some f →
        (wUp.files f).isSome = true := by
      intro f hf
      rw [show (parseArgs ["--prompt", "a", "--prompt-file", "pf"]).promptFile =
        some "pf" from rfl] at hf
      cases hf
      rfl
    have hcf : ∀ f, (parseArgs ["--prompt", "a", "--prompt-file", "pf"]).contextFile = some f →
        (wUp.files f).isSome = true := by
      intro f hf
      exact Option.noConfusion
        (show (none : Option String) = some f from hf)
    have h := (C2_amended_resolution wUp ["--prompt", "a", "--prompt-file", "pf"] hpf hcf).2
        "a" rfl (by decide)
    simpa using h.2 rfl
  · have hpf : ∀ f, (parseArgs ["fix", "the", "bug"]).promptFile = some f →
        (wUp.files f).isSome = true := by
      intro f hf
      exact Option.noConfusion
        (show (none : Option String) = some f from hf)
    have hcf : ∀ f, (parseArgs ["fix", "the", "bug"]).contextFile = some f →
        (wUp.files f).isSome = true := by
      intro f hf
      exact Option.noConfusion
        (show (none : Option String) = some f from hf)
    have h := (C2_amended_resolution wUp ["fix", "the", "bug"] hpf hcf).2
        "fix the bug" rfl (by decide)
    simpa using h.2 rfl


end NerovaAgent
